import Mathlib

/-!
Verification of the commitraider commit-history scanner.

This file is a shallow embedding, in Lean 4, of the parts of the Rust
sources that the verified properties concern:

* the batched commit extraction of `src/git/analyzer.rs` (`analyze_commits`,
  `get_changed_files_concurrent`), with the concurrent probe fan-out made
  explicit: each probe task's outcome is a parameter, and the order in which
  `JoinSet::join_next` yields finished tasks is an explicit completion-order
  list;
* the aggregation of `src/git/analyzer.rs` (`update_file_history`,
  `calculate_derived_stats`), with Rust `HashMap` values embedded as
  association lists (the maps are built by a single writer, keys are pushed
  on first touch) and `HashSet` values as duplicate-free lists;
* the pattern engine of `src/patterns/engine.rs` (`analyze_commit`,
  `calculate_risk_score`), with a compiled regex embedded as its matching
  function (group 0 and group 1 of the first match), and the catalog's
  reference-extraction regex of `src/patterns/mod.rs` hand-compiled to a
  character-level matcher;
* the combined risk model of `src/analysis/mod.rs` (`calculate_overall_risk`
  and its three sub-scores).

Conventions: `chrono::DateTime<Utc>` timestamps are embedded as `Int`
seconds (the program reads whole seconds from libgit2 and compares with
day-granularity offsets, one day being 86400 seconds); `f64` scores are
embedded as real numbers; `usize` as `Nat`; fallible Rust functions
returning `Result` are embedded with `Except String`.
-/

deriving instance DecidableEq for Except

namespace CR

/-- Severity levels of `src/patterns/mod.rs` (enum Severity). -/
inductive Severity where
  | Critical
  | High
  | Medium
  | Low
  | Info
deriving DecidableEq

/-- Pattern categories of `src/patterns/mod.rs` (enum Category). -/
inductive Category where
  | MemorySafety
  | Cryptography
  | WebSecurity
  | InputValidation
  | AuthenticationAuthorization
  | Concurrency
  | DataExposure
  | CodeInjection
  | Generic
deriving DecidableEq

/-- Vulnerability pattern record of `src/patterns/mod.rs` (struct VulnerabilityPattern). -/
structure VulnerabilityPattern where
  name : String
  pattern : String
  severity : Severity
  category : Category
  description : String
  cwe : Option String
  examples : List String
deriving DecidableEq

/-- Match record of `src/patterns/mod.rs` (struct PatternMatch). -/
structure PatternMatch where
  pattern_name : String
  matched_text : String
  severity : Severity
  category : Category
  file_path : String
  line_number : Option Nat
  context : String
  cve_references : List String
deriving DecidableEq

/-- Commit record of `src/git/mod.rs` (struct CommitInfo).
Timestamps are seconds since the epoch, as the analyzer reads them. -/
structure CommitInfo where
  id : String
  message : String
  author : String
  author_email : String
  committer : String
  committer_email : String
  authored_date : Int
  committed_date : Int
  files_changed : List String
  insertions : Nat
  deletions : Nat
  branch : Option String
deriving DecidableEq

/-- File history record of `src/git/mod.rs` (struct FileHistory).
The Rust `HashSet<String>` of authors is embedded as a duplicate-free
list (insertion adds a name only when absent). -/
structure FileHistory where
  path : String
  commits : List String
  authors : List String
  first_commit : Int
  last_commit : Int
  total_changes : Nat
deriving DecidableEq

/-- Author record of `src/git/mod.rs` (struct AuthorStats). -/
structure AuthorStats where
  name : String
  email : String
  commits : Nat
  files_touched : List String
  first_commit : Int
  last_commit : Int
  lines_added : Nat
  lines_removed : Nat
deriving DecidableEq

/-- Repository kind of `src/git/mod.rs` (enum RepositoryType). -/
inductive RepositoryType where
  | GitHub
  | GitLab
  | Bitbucket
  | Other
  | Local
deriving DecidableEq

/-- Test analysis record of `src/git/mod.rs` (struct TestAnalysis); its
`HashSet<String>` of frameworks is embedded as a duplicate-free list. -/
structure TestAnalysis where
  total_test_files : Nat
  test_directories : List String
  test_frameworks : List String
  has_regression_tests : Bool
  test_patterns_found : List String
  test_coverage_indicators : List String
deriving DecidableEq

/-- Aggregate root of `src/git/mod.rs` (struct RepositoryStats). The two
Rust `HashMap`s are embedded as association lists: each map has exactly one
writer which pushes a key on first touch and updates it in place afterwards. -/
structure RepositoryStats where
  path : String
  total_commits : Nat
  total_files : Nat
  total_authors : Nat
  first_commit : Int
  last_commit : Int
  branches : List String
  commit_history : List CommitInfo
  file_history : List (String × FileHistory)
  author_stats : List (String × AuthorStats)
  single_author_files : List String
  stale_files : List String
  high_churn_files : List String
  remote_url : Option String
  repository_type : RepositoryType
  test_analysis : TestAnalysis
deriving DecidableEq

/-! ## The batched extraction phase of `analyze_commits`

In `src/git/analyzer.rs` lines 143 to 274, each batch is processed in two
phases: the sequential metadata phase produces one tuple per commit
(`partial_commits`), and the concurrent phase spawns one probe task per
commit into a `tokio::task::JoinSet`, then drains the set with
`join_next`, which yields results in the order tasks COMPLETE.  The code
then pairs `file_results[i]` with `partial_commits[i]` by index.  We embed
the completion order as an explicit list of task indices (a permutation of
the spawn positions) so that the pairing performed by the code can be
stated and checked for any completion order. -/

/-- Metadata tuple built in the sequential phase of `analyze_commits`
(`src/git/analyzer.rs` lines 147 to 172). -/
structure PartialCommit where
  id : String
  message : String
  author : String
  author_email : String
  committer : String
  committer_email : String
  authored_date : Int
  committed_date : Int
deriving DecidableEq

/-- Outcome of one `git` subprocess invocation: the lines of its stdout
when it exits with status zero, or a failure (non-zero exit or spawn
error). -/
inductive CmdResult where
  | ok (lines : List String)
  | err
deriving DecidableEq

/-- Environment of the concurrent probe phase: the outcome each `git`
subprocess would produce for a given commit id, and whether the probe for
that commit id exceeds the 30-second timeout. -/
structure ProbeEnv where
  diffTree : String → CmdResult
  showCmd : String → CmdResult
  timedOut : String → Bool

/-- MAX_FILES_PER_COMMIT of `src/git/analyzer.rs` line 286. -/
def MAX_FILES_PER_COMMIT : Nat := 20

/-- Embedding of `get_changed_files_concurrent` (`src/git/analyzer.rs`
lines 282 to 348): run `git diff-tree` against the first parent; on
success take at most 20 lines and drop empty ones; when that list is empty
(root commit), fall back to `git show` under the same truncation; any
subprocess failure degrades to an empty list.  Every control path returns
`ok`; the `Result` type is kept to mirror the Rust signature. -/
def get_changed_files_concurrent (env : ProbeEnv) (commit_id : String) :
    Except String (List String) :=
  match env.diffTree commit_id with
  | CmdResult.ok lines =>
    let files := (lines.take MAX_FILES_PER_COMMIT).filter (fun s => !s.isEmpty)
    if files.isEmpty then
      match env.showCmd commit_id with
      | CmdResult.ok lines2 =>
        Except.ok ((lines2.take MAX_FILES_PER_COMMIT).filter (fun s => !s.isEmpty))
      | CmdResult.err => Except.ok files
    else Except.ok files
  | CmdResult.err => Except.ok []

/-- One spawned probe task (`src/git/analyzer.rs` lines 184 to 197): the
call is wrapped in a 30-second timeout whose expiry is absorbed into
`Ok(Vec::new())`. -/
def probeTask (env : ProbeEnv) (commit_id : String) : Except String (List String) :=
  if env.timedOut commit_id then Except.ok []
  else get_changed_files_concurrent env commit_id

/-- Construction of a CommitInfo from the metadata tuple and the file list
assigned to it (`src/git/analyzer.rs` lines 233 to 246). -/
def mkCommitInfo (p : PartialCommit) (files : List String) : CommitInfo :=
  { id := p.id
    message := p.message
    author := p.author
    author_email := p.author_email
    committer := p.committer
    committer_email := p.committer_email
    authored_date := p.authored_date
    committed_date := p.committed_date
    files_changed := files
    insertions := 0
    deletions := 0
    branch := none }

instance : Inhabited PartialCommit :=
  ⟨{ id := "", message := "", author := "", author_email := "", committer := "",
     committer_email := "", authored_date := 0, committed_date := 0 }⟩

/-- Pairing loop of `src/git/analyzer.rs` lines 213 to 250: the i-th
metadata tuple is combined with `file_results[i]`, and an error result is
propagated out of the whole batch by the `?` operator.  An out-of-range
index (impossible when as many results were collected as tasks spawned) is
embedded as an error, mirroring the Rust panic on `file_results[i]`. -/
def combineBatch (partials : List PartialCommit)
    (file_results : List (Except String (List String))) :
    Except String (List CommitInfo) :=
  (List.range partials.length).mapM (fun i =>
    match file_results.getD i (Except.error "index out of range") with
    | Except.ok files =>
      Except.ok (mkCommitInfo (partials.getD i default) files)
    | Except.error e => Except.error ("Failed to get changed files: " ++ e))

/-- Concurrent phase of one batch (`src/git/analyzer.rs` lines 174 to
250): one probe task is spawned per metadata tuple (in batch order), the
JoinSet is drained in completion order — `completion` lists the spawn
indices of the tasks in the order they finish — and the collected results
are paired with the metadata tuples by position. -/
def analyzeBatch (env : ProbeEnv) (partials : List PartialCommit)
    (completion : List Nat) : Except String (List CommitInfo) :=
  let tasks := partials.map (fun p => probeTask env p.id)
  let file_results := completion.map (fun j => tasks.getD j (Except.ok []))
  combineBatch partials file_results

/-- Metadata tuple with the given id; the other fields are irrelevant to
the probe pairing. -/
def pcOf (i : String) : PartialCommit :=
  { id := i, message := "m " ++ i, author := "alice", author_email := "a@x",
    committer := "alice", committer_email := "a@x",
    authored_date := 100, committed_date := 100 }

/-- Probe environment in which the probe of commit c0 yields file a and
the probe of commit c1 yields file b, with no timeouts and no root-commit
fallback. -/
def envTwo : ProbeEnv :=
  { diffTree := fun i => if i = "c0" then CmdResult.ok ["a"] else CmdResult.ok ["b"]
    showCmd := fun _ => CmdResult.err
    timedOut := fun _ => false }

/-- Probe environment identical to envTwo except that the probe for c0
times out. -/
def envTimeout : ProbeEnv :=
  { diffTree := fun i => if i = "c0" then CmdResult.ok ["a"] else CmdResult.ok ["b"]
    showCmd := fun _ => CmdResult.err
    timedOut := fun i => i = "c0" }

/-! ## Aggregation: `update_file_history` and `calculate_derived_stats` -/

/-- Insertion into a Rust `HashSet<String>`, embedded on duplicate-free
lists: the element is appended only when absent. -/
def insertOnce (s : List String) (x : String) : List String :=
  if x ∈ s then s else s ++ [x]

/-- Embedding of the Rust `HashMap::entry(k).or_insert(d)` idiom followed
by in-place mutation `f`: the first binding of `k` is rewritten through
`f`, and a missing key is bound to `f d`. -/
def entryUpsert {α : Type} (k : String) (d : α) (f : α → α) :
    List (String × α) → List (String × α)
  | [] => [(k, f d)]
  | (q, v) :: rest =>
    if q = k then (q, f v) :: rest else (q, v) :: entryUpsert k d f rest

/-- Lookup of the first binding of a key in an association list. -/
def findEntry {α : Type} (k : String) : List (String × α) → Option α
  | [] => none
  | (q, v) :: rest => if q = k then some v else findEntry k rest

/-- Default FileHistory inserted by `or_insert` in `update_file_history`
(`src/git/analyzer.rs` lines 382 to 392). -/
def newFileHistory (file_path : String) (commit : CommitInfo) : FileHistory :=
  { path := file_path
    commits := []
    authors := []
    first_commit := commit.authored_date
    last_commit := commit.authored_date
    total_changes := 0 }

/-- Mutation applied to a (present or freshly inserted) FileHistory entry
for one touching commit (`src/git/analyzer.rs` lines 394 to 403). -/
def touchFile (commit : CommitInfo) (h : FileHistory) : FileHistory :=
  { h with
    commits := h.commits ++ [commit.id]
    authors := insertOnce h.authors commit.author
    total_changes := h.total_changes + 1
    first_commit :=
      if commit.authored_date < h.first_commit then commit.authored_date
      else h.first_commit
    last_commit :=
      if commit.authored_date > h.last_commit then commit.authored_date
      else h.last_commit }

/-- Embedding of `update_file_history` (`src/git/analyzer.rs` lines 380
to 405), restricted to the only field it touches, the `file_history` map:
every path of the commit's `files_changed` list is upserted in order. -/
def update_file_history (m : List (String × FileHistory)) (commit : CommitInfo) :
    List (String × FileHistory) :=
  commit.files_changed.foldl
    (fun acc file_path =>
      entryUpsert file_path (newFileHistory file_path commit) (touchFile commit) acc)
    m

/-- Folding a commit sequence into the file-history map, as the
batch-apply loop of `analyze_commits` does (`src/git/analyzer.rs` lines
253 to 270), starting from the empty map of `analyze`. -/
def foldFileHistory (commits : List CommitInfo) : List (String × FileHistory) :=
  commits.foldl update_file_history []

/-- Sum of the `total_changes` counters over all entries of the map. -/
def totalChangesSum (m : List (String × FileHistory)) : Nat :=
  (m.map (fun e => e.2.total_changes)).sum

/-- Comparator of the high-churn sort (`src/git/analyzer.rs` line 428):
`a` may precede `b` when `b.total_changes <= a.total_changes`, that is,
descending by `total_changes`. -/
def churnGe (a b : String × FileHistory) : Prop :=
  b.2.total_changes ≤ a.2.total_changes

instance : DecidableRel churnGe := fun _ _ => Nat.decLe _ _

instance : IsTotal (String × FileHistory) churnGe :=
  ⟨fun a b => Nat.le_total b.2.total_changes a.2.total_changes⟩

instance : IsTrans (String × FileHistory) churnGe :=
  ⟨fun _ _ _ hab hbc => le_trans hbc hab⟩

/-- Embedding of `calculate_derived_stats` (`src/git/analyzer.rs` lines
407 to 443).  `now` stands for `Utc::now()`; one year is the hardcoded
`chrono::Duration::days(365)`, that is `365 * 86400` seconds.  Rust's
`sort_by` is a stable sort and a stable sort's output is uniquely
determined by the comparator, so it is embedded as stable insertion sort
with the same comparator.  Note the three `for` loops PUSH onto the
derived lists without clearing them first. -/
def calculate_derived_stats (now : Int) (stats : RepositoryStats) : RepositoryStats :=
  let s0 := { stats with
    total_authors := stats.author_stats.length
    total_files := stats.file_history.length }
  let s1 := { s0 with
    single_author_files :=
      s0.file_history.foldl
        (fun (acc : List String) (e : String × FileHistory) =>
          if e.2.authors.length = 1 then acc ++ [e.1] else acc)
        s0.single_author_files }
  let one_year_ago : Int := now - 365 * 86400
  let s2 := { s1 with
    stale_files :=
      s1.file_history.foldl
        (fun (acc : List String) (e : String × FileHistory) =>
          if e.2.last_commit < one_year_ago then acc ++ [e.1] else acc)
        s1.stale_files }
  let files_by_churn := List.insertionSort churnGe s2.file_history
  let high_churn_threshold := files_by_churn.length / 10
  { s2 with
    high_churn_files :=
      (files_by_churn.take (max high_churn_threshold 1)).foldl
        (fun (acc : List String) (e : String × FileHistory) => acc ++ [e.1])
        s2.high_churn_files }

/-- Paths of the file-history entries with exactly one author, in map
order: what one run of the single-author loop appends. -/
def derivedSingleAuthor (fh : List (String × FileHistory)) : List String :=
  (fh.filter (fun e => e.2.authors.length = 1)).map (fun e => e.1)

/-- Stale-file classification at a configurable threshold of `staleDays`
days, following the specification's words (the code hardcodes 365): the
paths whose last touching commit precedes `now` by more than the
threshold. -/
def staleByDays (staleDays : Nat) (now : Int) (fh : List (String × FileHistory)) :
    List String :=
  (fh.filter (fun e => e.2.last_commit < now - (staleDays : Int) * 86400)).map
    (fun e => e.1)

/-- Paths appended by one run of the high-churn loop: the first
`max (n / 10) 1` entries of the churn-descending stable sort. -/
def derivedHighChurn (fh : List (String × FileHistory)) : List String :=
  ((List.insertionSort churnGe fh).take (max (fh.length / 10) 1)).map (fun e => e.1)

/-! ## The pattern engine: `analyze_commit` and `calculate_risk_score` -/

/-- Severity weights of `calculate_risk_score` (`src/patterns/engine.rs`
lines 122 to 131). -/
noncomputable def severityWeight : Severity → ℝ
  | Severity.Critical => 9
  | Severity.High => 7
  | Severity.Medium => 5
  | Severity.Low => 3
  | Severity.Info => 1

/-- Compiled pattern as the engine holds it: the pair of a compiled regex
and its catalog record (`src/patterns/engine.rs` line 11).  The compiled
regex is embedded by its matching behaviour: for a message it yields the
whole text of the first match (capture group 0) and, when the pattern has
one, the text of capture group 1. -/
structure CompiledPattern where
  regex : String → Option (String × Option String)
  pattern : VulnerabilityPattern

/-- One iteration of the matching loop of `analyze_commit`
(`src/patterns/engine.rs` lines 76 to 97), carrying the
`patterns_matched` and `cve_references` accumulators: on a match, a
pattern named "CVE Reference" first appends its captured identifier
(prefixed with "CVE-") to the reference list, then a PatternMatch holding
the current reference list is pushed. -/
def collectStep (msg : String) (acc : List PatternMatch × List String)
    (cp : CompiledPattern) : List PatternMatch × List String :=
  match cp.regex msg with
  | none => acc
  | some (g0, g1) =>
    let refs :=
      if cp.pattern.name = "CVE Reference" then
        match g1 with
        | some cve_id => acc.2 ++ ["CVE-" ++ cve_id]
        | none => acc.2
      else acc.2
    (acc.1 ++
      [{ pattern_name := cp.pattern.name
         matched_text := g0
         severity := cp.pattern.severity
         category := cp.pattern.category
         file_path := "commit_message"
         line_number := none
         context := msg
         cve_references := refs }],
      refs)

/-- Matching loop of `analyze_commit` over all compiled patterns. -/
def collectMatches (compiled : List CompiledPattern) (msg : String) :
    List PatternMatch × List String :=
  compiled.foldl (collectStep msg) ([], [])

/-- Matches a message produces: first component of `collectMatches`. -/
def matchesOf (compiled : List CompiledPattern) (msg : String) : List PatternMatch :=
  (collectMatches compiled msg).1

/-- Embedding of `calculate_risk_score` (`src/patterns/engine.rs` lines
117 to 141): severity-weight sum, times the square root of the number of
changed files, doubled when any match came from the reference-extraction
pattern, capped at 10. -/
noncomputable def calculate_risk_score (patterns : List PatternMatch)
    (commit : CommitInfo) : ℝ :=
  let base_score : ℝ := (patterns.map (fun p => severityWeight p.severity)).sum
  let file_multiplier : ℝ := Real.sqrt (commit.files_changed.length : ℝ)
  let cve_multiplier : ℝ :=
    if patterns.any (fun p => p.pattern_name = "CVE Reference") then 2 else 1
  min (base_score * file_multiplier * cve_multiplier) 10

/-- Finding record of `src/patterns/mod.rs` (struct VulnerabilityFinding). -/
structure VulnerabilityFinding where
  commit_id : String
  commit_message : String
  author : String
  date : Int
  files_changed : List String
  patterns_matched : List PatternMatch
  risk_score : ℝ
  cve_references : List String

/-- Embedding of `analyze_commit` (`src/patterns/engine.rs` lines 68 to
115): a commit with no match yields no finding; otherwise exactly one
finding carrying the match list, the collected references and the risk
score. -/
noncomputable def analyze_commit (compiled : List CompiledPattern)
    (commit : CommitInfo) : Option VulnerabilityFinding :=
  let collected := collectMatches compiled commit.message
  if collected.1.isEmpty then none
  else
    some
      { commit_id := commit.id
        commit_message := commit.message
        author := commit.author
        date := commit.authored_date
        files_changed := commit.files_changed
        patterns_matched := collected.1
        risk_score := calculate_risk_score collected.1 commit
        cve_references := collected.2 }

/-! ## The reference-extraction regex, hand-compiled

The catalog's "CVE Reference" pattern (`src/patterns/mod.rs` lines 174 to
182) is the regex `(?i)\bcve[-\s]?(\d...[-\s]?\d...)\b` where the first
digit block is exactly four digits and the second is four or more.  Under
the backtracking (leftmost-first) semantics of `fancy_regex` it matches,
at the first feasible position, a word-boundary, the letters c v e in
either case, at most one separator (dash or whitespace), four digits, at
most one separator, a maximal run of at least four digits, and a word
boundary.  The optional separators never overlap the digit classes and a
shorter digit run always ends on a word character, so no backtracking
path rescues a failed greedy attempt and the matcher below is exact. -/

/-- Word characters of the regex classes `\w` and the boundary `\b`
(ASCII range, which covers the identifiers involved). -/
def isWordChar (c : Char) : Bool := c.isAlphanum || c = '_'

/-- Characters of the regex class `[-\s]`: a dash or whitespace. -/
def isSepChar (c : Char) : Bool :=
  c = '-' || c = ' ' || c = '\t' || c = '\n' || c = '\r' || c = '\x0b' || c = '\x0c'

/-- Maximal digit prefix of a character list, with the remainder. -/
def takeDigitRun : List Char → List Char × List Char
  | [] => ([], [])
  | c :: cs =>
    if c.isDigit then
      let r := takeDigitRun cs
      (c :: r.1, r.2)
    else ([], c :: cs)

/-- Word boundary after the end of a match: end of text or a non-word
character. -/
def wordBoundaryAfter : List Char → Bool
  | [] => true
  | c :: _ => !isWordChar c

/-- Attempt to match the CVE pattern (minus its leading boundary) at the
head of `l`; on success, the characters of capture group 0 (the whole
match) and of capture group 1 (the identifier). -/
def matchCVEAt (l : List Char) : Option (List Char × List Char) :=
  match l with
  | c :: v :: e :: rest =>
    if c.toLower = 'c' && v.toLower = 'v' && e.toLower = 'e' then
      let sepRest : List Char × List Char :=
        match rest with
        | s :: t => if isSepChar s then ([s], t) else ([], s :: t)
        | [] => ([], [])
      match sepRest.2 with
      | d1 :: d2 :: d3 :: d4 :: rest2 =>
        if d1.isDigit && d2.isDigit && d3.isDigit && d4.isDigit then
          let tailMatch : Option (List Char × List Char) :=
            match rest2 with
            | s2 :: t2 =>
              if isSepChar s2 then
                let run := takeDigitRun t2
                if 4 ≤ run.1.length && wordBoundaryAfter run.2 then
                  some (s2 :: run.1, run.2)
                else none
              else
                let run := takeDigitRun (s2 :: t2)
                if 4 ≤ run.1.length && wordBoundaryAfter run.2 then
                  some (run.1, run.2)
                else none
            | [] => none
          match tailMatch with
          | some tm =>
            let group1 := d1 :: d2 :: d3 :: d4 :: tm.1
            some (c :: v :: e :: (sepRest.1 ++ group1), group1)
          | none => none
        else none
      | _ => none
    else none
  | _ => none

/-- Leftmost-match scan: positions are tried left to right, the pattern's
leading word boundary requiring the previous character (tracked by
`prevIsWord`) to be absent or a non-word character. -/
def cveScan : List Char → Bool → Option (List Char × List Char)
  | [], _ => none
  | c :: rest, prevIsWord =>
    match if prevIsWord then none else matchCVEAt (c :: rest) with
    | some r => some r
    | none => cveScan rest (isWordChar c)

/-- Matching function of the compiled "CVE Reference" regex. -/
def cveRegexFn (msg : String) : Option (String × Option String) :=
  (cveScan msg.data false).map (fun r => (String.mk r.1, some (String.mk r.2)))

/-- Catalog record of the "CVE Reference" pattern (`src/patterns/mod.rs`
lines 174 to 182). -/
def cvePattern : VulnerabilityPattern :=
  { name := "CVE Reference"
    pattern := "(?i)\\bcve[-\\s]?(\\d\x7b4\x7d[-\\s]?\\d\x7b4,\x7d)\\b"
    severity := Severity.Info
    category := Category.Generic
    description := "CVE reference found"
    cwe := none
    examples := ["CVE-2021-1234"] }

/-- The compiled "CVE Reference" pattern. -/
def cveCompiled : CompiledPattern :=
  { regex := cveRegexFn, pattern := cvePattern }

/-- Substring test on character lists: true when `needle` occurs
contiguously inside the second list. -/
def containsChars (needle : List Char) : List Char → Bool
  | [] => needle.isEmpty
  | c :: t => needle.isPrefixOf (c :: t) || containsChars needle t

/-! ## The combined risk model of `src/analysis/mod.rs` -/

/-- Dependency records of `src/analysis/mod.rs`. -/
structure OutdatedDependency where
  name : String
  current_version : String
  latest_version : String
  age_days : Int
deriving DecidableEq

/-- Vulnerable-dependency record of `src/analysis/mod.rs`. -/
structure VulnerableDependency where
  name : String
  version : String
  vulnerabilities : List String
  severity : String
deriving DecidableEq

/-- License-issue record of `src/analysis/mod.rs`. -/
structure LicenseIssue where
  dependency : String
  license : String
  issue_type : String
deriving DecidableEq

/-- Dependency analysis of `src/analysis/mod.rs` (struct DependencyAnalysis). -/
structure DependencyAnalysis where
  total_dependencies : Nat
  outdated_dependencies : List OutdatedDependency
  vulnerable_dependencies : List VulnerableDependency
  license_issues : List LicenseIssue
deriving DecidableEq

/-- Complexity metrics of `src/analysis/mod.rs`; the `f64` fields carry
finite measured values and are embedded as rationals. -/
structure ComplexityMetrics where
  cyclomatic_complexity : ℚ
  cognitive_complexity : ℚ
  nesting_depth : Nat
  function_count : Nat
  line_count : Nat
  maintainability_index : ℚ
deriving DecidableEq

/-- Language statistics of `src/analysis/mod.rs`. -/
structure LanguageStats where
  name : String
  files : Nat
  lines : Nat
  blank_lines : Nat
  comment_lines : Nat
  complexity_score : ℚ
deriving DecidableEq

/-- Code statistics of `src/analysis/mod.rs` (struct CodeStats); the
`risk_factors` report list plays no part in the risk computation and is
embedded by its length only. -/
structure CodeStats where
  total_lines : Nat
  total_files : Nat
  language_breakdown : List (String × LanguageStats)
  file_complexity : List (String × ComplexityMetrics)
  dependency_analysis : DependencyAnalysis
  risk_factors : Nat
deriving DecidableEq

/-- Combined findings of `src/analysis/mod.rs` (struct CombinedFindings);
the `config` field is not read by the risk computation and is omitted. -/
structure CombinedFindings where
  git_stats : RepositoryStats
  code_stats : CodeStats
  vulnerabilities : List VulnerabilityFinding

/-- Embedding of `calculate_git_risks` (`src/analysis/mod.rs` lines 156
to 175): three ratios over `total_files`, weighted 2.0, 1.5 and 1.0. -/
noncomputable def calculate_git_risks (cf : CombinedFindings) : ℝ :=
  let single_author_ratio : ℝ :=
    (cf.git_stats.single_author_files.length : ℝ) / (cf.git_stats.total_files : ℝ)
  let stale_ratio : ℝ :=
    (cf.git_stats.stale_files.length : ℝ) / (cf.git_stats.total_files : ℝ)
  let churn_ratio : ℝ :=
    (cf.git_stats.high_churn_files.length : ℝ) / (cf.git_stats.total_files : ℝ)
  single_author_ratio * 2 + stale_ratio * 1.5 + churn_ratio * 1

/-- Embedding of `calculate_code_risks` (`src/analysis/mod.rs` lines 177
to 207): high-complexity ratio weighted 2, outdated dependencies at 0.1
each capped at 1, vulnerable dependencies at 0.5 each (uncapped). -/
noncomputable def calculate_code_risks (cf : CombinedFindings) : ℝ :=
  let high_complexity_count : ℝ :=
    ((cf.code_stats.file_complexity.filter
        (fun c => (10 : ℚ) < c.2.cyclomatic_complexity)).length : ℝ)
  high_complexity_count / (cf.code_stats.total_files : ℝ) * 2 +
    min ((cf.code_stats.dependency_analysis.outdated_dependencies.length : ℝ) * 0.1) 1 +
    (cf.code_stats.dependency_analysis.vulnerable_dependencies.length : ℝ) * 0.5

/-- Embedding of `calculate_vulnerability_risks` (`src/analysis/mod.rs`
lines 209 to 215): findings' risk scores normalized to a 0 to 1 scale,
summed, capped at 5. -/
noncomputable def calculate_vulnerability_risks (cf : CombinedFindings) : ℝ :=
  min ((cf.vulnerabilities.map (fun v => v.risk_score / 10)).sum) 5

/-- Embedding of `calculate_overall_risk` (`src/analysis/mod.rs` lines
141 to 154): the three sub-scores summed, capped at 10. -/
noncomputable def calculate_overall_risk (cf : CombinedFindings) : ℝ :=
  min (calculate_git_risks cf + calculate_code_risks cf +
    calculate_vulnerability_risks cf) 10

/-! ## Concrete instances used by the witnesses and counterexamples -/

/-- Total-changes counter found at a key of the map, zero when absent. -/
def tcAt (m : List (String × FileHistory)) (p : String) : Nat :=
  ((findEntry p m).map (fun h => h.total_changes)).getD 0

/-- RepositoryStats with the given file-history map and every other field
at its initial value from `analyze` (`src/git/analyzer.rs` lines 38 to
62). -/
def baseStats (fh : List (String × FileHistory)) : RepositoryStats :=
  { path := "repo", total_commits := 0, total_files := 0, total_authors := 0,
    first_commit := 0, last_commit := 0, branches := [], commit_history := [],
    file_history := fh, author_stats := [], single_author_files := [],
    stale_files := [], high_churn_files := [], remote_url := none,
    repository_type := RepositoryType.Local,
    test_analysis :=
      { total_test_files := 0
        test_directories := []
        test_frameworks := []
        has_regression_tests := false
        test_patterns_found := []
        test_coverage_indicators := [] } }

/-- FileHistory map entry with the fields the derived statistics read. -/
def fhEntry (p : String) (authors : List String) (last : Int) (tc : Nat) :
    String × FileHistory :=
  (p, { path := p, commits := [], authors := authors, first_commit := 0,
        last_commit := last, total_changes := tc })

/-- CommitInfo with the fields the aggregation and the pattern engine
read. -/
def commitOf (i msg : String) (files : List String) : CommitInfo :=
  { id := i, message := msg, author := "alice", author_email := "a@x",
    committer := "alice", committer_email := "a@x", authored_date := 100,
    committed_date := 100, files_changed := files, insertions := 0,
    deletions := 0, branch := none }

/-- Eleven files of pairwise distinct churn. -/
def fh11 : List (String × FileHistory) :=
  (List.range 11).map (fun i => fhEntry ("f" ++ toString i) ["alice"] 0 (20 - i))

/-- Two files, one last touched at the epoch and one 100 days before
`now8`. -/
def fh8 : List (String × FileHistory) :=
  [fhEntry "old" ["alice"] 0 1, fhEntry "mid" ["alice"] (900 * 86400) 1]

/-- Clock of the staleness counterexample: day 1000. -/
def now8 : Int := 1000 * 86400

/-- One single-author file. -/
def fh5 : List (String × FileHistory) := [fhEntry "f" ["alice"] 0 1]

/-- Commit whose changed-file list names the same path twice. -/
def commitDup : CommitInfo := commitOf "dup1" "touches one file twice" ["a", "a"]

/-- Two commits with distinct ids and duplicate-free file lists. -/
def commitsPair : List CommitInfo :=
  [commitOf "c1" "fix overflow" ["file1.txt"],
   commitOf "c2" "routine update" ["file1.txt", "file2.txt"]]

/-- Commit whose message contains CVE-2021-1234 only as part of the
longer word XCVE-2021-1234. -/
def commitX : CommitInfo := commitOf "x1" "XCVE-2021-1234" ["f"]

/-- Commit carrying a well-formed CVE reference and one changed file. -/
def commitW2 : CommitInfo := commitOf "w2" "Fix CVE-2021-1234 in release" ["src/main.c"]

/-- Commit carrying a well-formed CVE reference and no changed files. -/
def commitW10 : CommitInfo := commitOf "w3" "Fix CVE-2021-1234 in release" []

/-- Dependency analysis with nothing in it. -/
def emptyDependencyAnalysis : DependencyAnalysis :=
  { total_dependencies := 0, outdated_dependencies := [],
    vulnerable_dependencies := [], license_issues := [] }

/-- Code statistics of a one-file repository with no recorded complexity
or dependency findings. -/
def emptyCodeStats : CodeStats :=
  { total_lines := 0, total_files := 1, language_breakdown := [],
    file_complexity := [], dependency_analysis := emptyDependencyAnalysis,
    risk_factors := 0 }

/-- One vulnerable-dependency record. -/
def vulnDep : VulnerableDependency :=
  { name := "dep", version := "1.0", vulnerabilities := ["CVE-2020-0001"],
    severity := "high" }

/-- Combined findings whose code statistics carry `n` vulnerable
dependencies and nothing else. -/
def cfDeps (n : Nat) : CombinedFindings :=
  { git_stats := { baseStats [] with total_files := 1 }
    code_stats := { emptyCodeStats with
      dependency_analysis := { emptyDependencyAnalysis with
        vulnerable_dependencies := List.replicate n vulnDep } }
    vulnerabilities := [] }

/-- Combined findings of a one-file repository with no findings at all. -/
def cfW : CombinedFindings :=
  { git_stats := { baseStats [] with total_files := 1 }
    code_stats := emptyCodeStats
    vulnerabilities := [] }

/-! ## Supporting lemmas -/

/-- Push-if loops append exactly the filtered, projected entries. -/
theorem foldl_pushIf {α : Type} (q : α → Prop) [DecidablePred q] (f : α → String) :
    ∀ (l : List α) (acc : List String),
      l.foldl (fun acc e => if q e then acc ++ [f e] else acc) acc
        = acc ++ (l.filter (fun e => q e)).map f
  | [], acc => by simp
  | x :: xs, acc => by
    by_cases h : q x
    · simp [h, foldl_pushIf q f xs]
    · simp [h, foldl_pushIf q f xs]

/-- Unconditional push loops append exactly the projected entries. -/
theorem foldl_push {α : Type} (f : α → String) :
    ∀ (l : List α) (acc : List String),
      l.foldl (fun acc e => acc ++ [f e]) acc = acc ++ l.map f
  | [], acc => by simp
  | x :: xs, acc => by simp [foldl_push f xs]

/-- Closed form of `calculate_derived_stats`: the counters are set from
the map sizes and each derived list receives its derivation appended. -/
theorem calc_derived_spec (now : Int) (s : RepositoryStats) :
    calculate_derived_stats now s = { s with
      total_authors := s.author_stats.length
      total_files := s.file_history.length
      single_author_files := s.single_author_files ++ derivedSingleAuthor s.file_history
      stale_files := s.stale_files ++ staleByDays 365 now s.file_history
      high_churn_files := s.high_churn_files ++ derivedHighChurn s.file_history } := by
  unfold calculate_derived_stats
  simp only [foldl_pushIf, foldl_push, derivedSingleAuthor, staleByDays, derivedHighChurn,
    List.length_insertionSort]
  norm_num

/-- Upserting a key leaves its binding equal to the update of the
previous binding (or of the default). -/
theorem findEntry_upsert_self {α : Type} (k : String) (d : α) (f : α → α) :
    ∀ m : List (String × α),
      findEntry k (entryUpsert k d f m) = some (f ((findEntry k m).getD d))
  | [] => by simp [entryUpsert, findEntry]
  | (q, v) :: rest => by
    by_cases h : q = k
    · subst h; simp [entryUpsert, findEntry]
    · simp [entryUpsert, findEntry, h, findEntry_upsert_self k d f rest]

/-- Upserting a key leaves every other binding unchanged. -/
theorem findEntry_upsert_other {α : Type} (p k : String) (d : α) (f : α → α)
    (hne : p ≠ k) :
    ∀ m : List (String × α), findEntry p (entryUpsert k d f m) = findEntry p m
  | [] => by simp [entryUpsert, findEntry, Ne.symm hne]
  | (q, v) :: rest => by
    by_cases h : q = k
    · subst h
      simp [entryUpsert, findEntry, Ne.symm hne]
    · simp [entryUpsert, findEntry, h, findEntry_upsert_other p k d f hne rest]

/-- Touching a file raises the counter of exactly that path by one. -/
theorem tcAt_touch (c : CommitInfo) (p fp : String) (m : List (String × FileHistory)) :
    tcAt (entryUpsert fp (newFileHistory fp c) (touchFile c) m) p
      = tcAt m p + (if fp = p then 1 else 0) := by
  by_cases h : fp = p
  · subst h
    rw [tcAt, findEntry_upsert_self]
    cases hfe : findEntry fp m with
    | none => simp [tcAt, hfe, touchFile, newFileHistory]
    | some v => simp [tcAt, hfe, touchFile]
  · rw [tcAt, findEntry_upsert_other p fp _ _ (Ne.symm h)]
    simp [tcAt, h]

/-- Folding one commit's file list raises the counter of each path by its
number of occurrences in the list. -/
theorem tcAt_fold_files (c : CommitInfo) (p : String) :
    ∀ (fs : List String) (m : List (String × FileHistory)),
      tcAt (fs.foldl
        (fun acc fp => entryUpsert fp (newFileHistory fp c) (touchFile c) acc) m) p
        = tcAt m p + fs.count p
  | [], m => by simp
  | x :: xs, m => by
    rw [List.foldl_cons, tcAt_fold_files c p xs, tcAt_touch]
    rw [List.count_cons]
    by_cases h : x = p
    · simp [h]
      omega
    · simp [h]

/-- Per-commit counter effect of `update_file_history`. -/
theorem tcAt_update (m : List (String × FileHistory)) (c : CommitInfo) (p : String) :
    tcAt (update_file_history m c) p = tcAt m p + c.files_changed.count p :=
  tcAt_fold_files c p c.files_changed m

/-- Counter effect of folding a whole commit sequence. -/
theorem tcAt_fold_commits (p : String) :
    ∀ (cs : List CommitInfo) (m : List (String × FileHistory)),
      tcAt (cs.foldl update_file_history m) p
        = tcAt m p + (cs.map (fun c => c.files_changed.count p)).sum
  | [], m => by simp
  | c :: cs, m => by
    rw [List.foldl_cons, tcAt_fold_commits p cs, tcAt_update]
    simp [Nat.add_assoc]

/-- Each upsert of the file-history fold raises the total counter sum by
exactly one. -/
theorem totalChangesSum_upsert (c : CommitInfo) (k : String) :
    ∀ m : List (String × FileHistory),
      totalChangesSum (entryUpsert k (newFileHistory k c) (touchFile c) m)
        = totalChangesSum m + 1
  | [] => by simp [entryUpsert, totalChangesSum, touchFile, newFileHistory]
  | (q, v) :: rest => by
    by_cases h : q = k
    · subst h; simp [entryUpsert, totalChangesSum, touchFile]; omega
    · have ih := totalChangesSum_upsert c k rest
      simp only [entryUpsert, if_neg h, totalChangesSum, List.map_cons, List.sum_cons] at ih ⊢
      omega

/-- Folding one commit's file list raises the total counter sum by the
list's length. -/
theorem sum_fold_files (c : CommitInfo) :
    ∀ (fs : List String) (m : List (String × FileHistory)),
      totalChangesSum (fs.foldl
        (fun acc fp => entryUpsert fp (newFileHistory fp c) (touchFile c) acc) m)
        = totalChangesSum m + fs.length
  | [], m => by simp
  | x :: xs, m => by
    rw [List.foldl_cons, sum_fold_files c xs, totalChangesSum_upsert]
    simp
    omega

/-- Folding a commit sequence raises the total counter sum by the sum of
the file-list lengths. -/
theorem sum_fold_commits :
    ∀ (cs : List CommitInfo) (m : List (String × FileHistory)),
      totalChangesSum (cs.foldl update_file_history m)
        = totalChangesSum m + (cs.map (fun c => c.files_changed.length)).sum
  | [], m => by simp
  | c :: cs, m => by
    rw [List.foldl_cons, sum_fold_commits cs, update_file_history, sum_fold_files]
    simp [Nat.add_assoc]

/-- For duplicate-free file lists, summed occurrence counts of a path
collapse to the number of commits touching it. -/
theorem sum_counts_nodup (p : String) :
    ∀ cs : List CommitInfo, (∀ c ∈ cs, c.files_changed.Nodup) →
      (cs.map (fun c => c.files_changed.count p)).sum
        = (cs.filter (fun c => p ∈ c.files_changed)).length
  | [], _ => by simp
  | c :: cs, h => by
    have hc : c.files_changed.Nodup := h c (List.mem_cons_self c cs)
    have hcs := sum_counts_nodup p cs (fun x hx => h x (List.mem_cons_of_mem c hx))
    by_cases hm : p ∈ c.files_changed
    · rw [List.map_cons, List.sum_cons, hcs, List.count_eq_one_of_mem hc hm]
      simp [hm, Nat.add_comm]
    · rw [List.map_cons, List.sum_cons, hcs, List.count_eq_zero.mpr hm]
      simp [hm]

/-- Severity weights are non-negative. -/
theorem severityWeight_nonneg (s : Severity) : 0 ≤ severityWeight s := by
  cases s <;> norm_num [severityWeight]

/-- The severity-weight sum over any match list is non-negative. -/
theorem weights_sum_nonneg (patterns : List PatternMatch) :
    0 ≤ (patterns.map (fun p => severityWeight p.severity)).sum := by
  refine List.sum_nonneg ?_
  intro x hx
  obtain ⟨p, _, rfl⟩ := List.mem_map.mp hx
  exact severityWeight_nonneg p.severity

/-- Risk scores are non-negative. -/
theorem risk_score_nonneg (patterns : List PatternMatch) (c : CommitInfo) :
    0 ≤ calculate_risk_score patterns c := by
  unfold calculate_risk_score
  refine le_min ?_ (by norm_num)
  refine mul_nonneg (mul_nonneg (weights_sum_nonneg patterns) (Real.sqrt_nonneg _)) ?_
  split <;> norm_num

/-- Risk scores are capped at ten. -/
theorem risk_score_le_ten (patterns : List PatternMatch) (c : CommitInfo) :
    calculate_risk_score patterns c ≤ 10 := by
  unfold calculate_risk_score
  exact min_le_right _ _

/-- One matching step never removes collected references. -/
theorem collectStep_refs_mono (msg : String) (acc : List PatternMatch × List String)
    (cp : CompiledPattern) (x : String) (hx : x ∈ acc.2) :
    x ∈ (collectStep msg acc cp).2 := by
  unfold collectStep
  cases cp.regex msg with
  | none => exact hx
  | some g =>
    cases g with
    | mk g0 g1 =>
      by_cases hn : cp.pattern.name = "CVE Reference"
      · cases g1 with
        | none => simpa [hn] using hx
        | some cve_id => simp [hn, hx]
      · simpa [hn] using hx

/-- One matching step never removes collected matches. -/
theorem collectStep_matches_mono (msg : String) (acc : List PatternMatch × List String)
    (cp : CompiledPattern) (pm : PatternMatch) (hx : pm ∈ acc.1) :
    pm ∈ (collectStep msg acc cp).1 := by
  unfold collectStep
  cases cp.regex msg with
  | none => exact hx
  | some g =>
    cases g with
    | mk g0 g1 => simp [hx]

/-- The matching loop never removes collected references. -/
theorem collect_refs_mono (msg : String) :
    ∀ (l : List CompiledPattern) (acc : List PatternMatch × List String) (x : String),
      x ∈ acc.2 → x ∈ (l.foldl (collectStep msg) acc).2
  | [], _, _, hx => hx
  | cp :: l, acc, x, hx =>
    collect_refs_mono msg l (collectStep msg acc cp) x
      (collectStep_refs_mono msg acc cp x hx)

/-- The matching loop never removes collected matches. -/
theorem collect_matches_mono (msg : String) :
    ∀ (l : List CompiledPattern) (acc : List PatternMatch × List String)
      (pm : PatternMatch), pm ∈ acc.1 → pm ∈ (l.foldl (collectStep msg) acc).1
  | [], _, _, hx => hx
  | cp :: l, acc, pm, hx =>
    collect_matches_mono msg l (collectStep msg acc cp) pm
      (collectStep_matches_mono msg acc cp pm hx)

/-- A step on the reference-extraction pattern whose regex captures the
identifier 2021-1234 appends CVE-2021-1234 to the reference list and
pushes a match named "CVE Reference". -/
theorem collectStep_cve (msg : String) (acc : List PatternMatch × List String)
    (g0 : String) (hcap : cveRegexFn msg = some (g0, some "2021-1234")) :
    (collectStep msg acc cveCompiled).2 = acc.2 ++ ["CVE-2021-1234"] ∧
    ∃ pm, pm ∈ (collectStep msg acc cveCompiled).1 ∧
      pm.pattern_name = "CVE Reference" := by
  have hr : cveCompiled.regex msg = some (g0, some "2021-1234") := hcap
  unfold collectStep
  rw [hr]
  have hn : cveCompiled.pattern.name = "CVE Reference" := rfl
  refine ⟨by simp [hn], ?_⟩
  refine ⟨_, List.mem_append_right _ (List.mem_singleton.mpr rfl), hn⟩

/-- Mapping a function that always returns `ok` over a list returns `ok`
of a list of the same length. -/
theorem mapM_ok {α β : Type} (f : α → Except String β) :
    ∀ l : List α, (∀ a ∈ l, ∃ y, f a = Except.ok y) →
      ∃ ys : List β, l.mapM f = Except.ok ys ∧ ys.length = l.length
  | [], _ => ⟨[], by simp [List.mapM_nil]; rfl, rfl⟩
  | a :: l, h => by
    obtain ⟨y, hy⟩ := h a (List.mem_cons_self a l)
    obtain ⟨ys, hys, hlen⟩ := mapM_ok f l (fun x hx => h x (List.mem_cons_of_mem a hx))
    refine ⟨y :: ys, ?_, by simp [hlen]⟩
    rw [List.mapM_cons, hy, hys]
    rfl

/-- The changed-file probe returns `ok` on every control path: a failed
or empty diff falls back, a failed fallback degrades to the empty list. -/
theorem get_changed_files_ok (env : ProbeEnv) (commit_id : String) :
    ∃ fs, get_changed_files_concurrent env commit_id = Except.ok fs := by
  unfold get_changed_files_concurrent
  cases env.diffTree commit_id with
  | ok lines =>
    dsimp only
    split
    · split
      · exact ⟨_, rfl⟩
      · exact ⟨_, rfl⟩
    · exact ⟨_, rfl⟩
  | err => exact ⟨[], rfl⟩

/-- A probe task returns `ok` whether or not it times out. -/
theorem probeTask_ok (env : ProbeEnv) (commit_id : String) :
    ∃ fs, probeTask env commit_id = Except.ok fs := by
  unfold probeTask
  split
  · exact ⟨[], rfl⟩
  · exact get_changed_files_ok env commit_id

/-- A batch whose completion order covers all its tasks always produces
`ok` with one CommitInfo per metadata tuple: no probe outcome can fail
the batch. -/
theorem analyzeBatch_ok (env : ProbeEnv) (ps : List PartialCommit) (order : List Nat)
    (h : ps.length ≤ order.length) :
    ∃ cs, analyzeBatch env ps order = Except.ok cs ∧ cs.length = ps.length := by
  unfold analyzeBatch combineBatch
  have hres : ∀ i ∈ List.range ps.length,
      ∃ y, (match (order.map (fun j =>
            (ps.map (fun p => probeTask env p.id)).getD j (Except.ok []))).getD i
              (Except.error "index out of range") with
        | Except.ok files => Except.ok (mkCommitInfo (ps.getD i default) files)
        | Except.error e =>
            Except.error ("Failed to get changed files: " ++ e)) = Except.ok y := by
    intro i hi
    have hi2 : i < order.length := lt_of_lt_of_le (List.mem_range.mp hi) h
    have hilen : i < (order.map (fun j =>
        (ps.map (fun p => probeTask env p.id)).getD j (Except.ok []))).length := by
      simpa using hi2
    have hmem : (order.map (fun j =>
        (ps.map (fun p => probeTask env p.id)).getD j (Except.ok []))).getD i
          (Except.error "index out of range")
        ∈ (order.map (fun j =>
            (ps.map (fun p => probeTask env p.id)).getD j (Except.ok []))) := by
      rw [List.getD_eq_getElem _ _ hilen]
      exact List.getElem_mem hilen
    obtain ⟨j, hjmem, heq⟩ := List.mem_map.mp hmem
    rw [← heq]
    rcases hok : (ps.map (fun p => probeTask env p.id)).getD j (Except.ok []) with e | fs
    · exfalso
      by_cases hj : j < (ps.map (fun p => probeTask env p.id)).length
      · have : (ps.map (fun p => probeTask env p.id)).getD j (Except.ok [])
            ∈ ps.map (fun p => probeTask env p.id) := by
          rw [List.getD_eq_getElem _ _ hj]
          exact List.getElem_mem hj
        rw [hok] at this
        obtain ⟨p, _, hp⟩ := List.mem_map.mp this
        obtain ⟨fs, hfs⟩ := probeTask_ok env p.id
        rw [hfs] at hp
        exact Except.noConfusion hp
      · rw [List.getD_eq_default _ _ (le_of_not_lt hj)] at hok
        exact Except.noConfusion hok
    · rw [hok]
      exact ⟨_, rfl⟩
  obtain ⟨ys, hys, hlen⟩ := mapM_ok _ (List.range ps.length) hres
  refine ⟨ys, ?_, by simpa using hlen⟩
  simpa using hys

/-! ## The claims -/

/-- C1: the claim states that each commit of a batch receives the file
list of the probe dispatched for its own id, whatever the completion
order of the concurrent probe tasks.  The code pairs `file_results[i]`
with `partial_commits[i]`, but `join_next` fills `file_results` in
completion order, so the pairing holds only for the identity completion
order: in a two-commit batch whose tasks finish in reverse order, commit
c0 (probe result a) receives b and commit c1 (probe result b) receives
a - against the code's own comment, which says the collection maintains
order. -/
theorem analyzeBatch_pairs_by_completion_order :
    probeTask envTwo "c0" = Except.ok ["a"] ∧
    probeTask envTwo "c1" = Except.ok ["b"] ∧
    (analyzeBatch envTwo [pcOf "c0", pcOf "c1"] [1, 0]).map
        (fun l => l.map CommitInfo.files_changed) = Except.ok [["b"], ["a"]] ∧
    (Except.ok [["b"], ["a"]] : Except String (List (List String)))
      ≠ Except.ok [["a"], ["b"]] := by
  decide

/-- C2: a commit whose message matches at least one compiled pattern
yields exactly one finding, whose risk score is the capped product
min(10, weight sum x sqrt(changed files) x CVE doubling), hence lies in
the interval from 0 to 10. -/
theorem analyze_commit_risk_formula (compiled : List CompiledPattern) (c : CommitInfo)
    (h : matchesOf compiled c.message ≠ []) :
    ∃ f, analyze_commit compiled c = some f ∧
      f.patterns_matched = matchesOf compiled c.message ∧
      f.risk_score = min 10
        (((f.patterns_matched.map (fun m => severityWeight m.severity)).sum)
          * Real.sqrt (c.files_changed.length : ℝ)
          * (if f.patterns_matched.any (fun m => m.pattern_name = "CVE Reference")
              then 2 else 1)) ∧
      0 ≤ f.risk_score ∧ f.risk_score ≤ 10 := by
  have hne : (collectMatches compiled c.message).1.isEmpty = false := by
    rw [List.isEmpty_eq_false]
    exact h
  refine ⟨{ commit_id := c.id, commit_message := c.message, author := c.author,
            date := c.authored_date, files_changed := c.files_changed,
            patterns_matched := (collectMatches compiled c.message).1,
            risk_score := calculate_risk_score (collectMatches compiled c.message).1 c,
            cve_references := (collectMatches compiled c.message).2 },
          ?_, rfl, ?_, ?_, ?_⟩
  · simp [analyze_commit, hne]
  · rw [min_comm]
    rfl
  · exact risk_score_nonneg _ c
  · exact risk_score_le_ten _ c

/-- C2 witness: the risk-formula theorem applied to a commit matching the
reference-extraction pattern. -/
theorem analyze_commit_risk_formula_witness :
    matchesOf [cveCompiled] commitW2.message ≠ [] ∧
    (∃ f, analyze_commit [cveCompiled] commitW2 = some f ∧
      f.patterns_matched = matchesOf [cveCompiled] commitW2.message ∧
      f.risk_score = min 10
        (((f.patterns_matched.map (fun m => severityWeight m.severity)).sum)
          * Real.sqrt (commitW2.files_changed.length : ℝ)
          * (if f.patterns_matched.any (fun m => m.pattern_name = "CVE Reference")
              then 2 else 1)) ∧
      0 ≤ f.risk_score ∧ f.risk_score ≤ 10) :=
  ⟨by decide, analyze_commit_risk_formula [cveCompiled] commitW2 (by decide)⟩

/-- C3 counterexample: folding a single commit whose changed-file list
names the same path twice gives that path a total-changes counter of 2,
although only one distinct commit was folded into it, refuting the
claim's second conjunct over arbitrary record sequences. -/
theorem file_history_duplicate_path_cex :
    (findEntry "a" (foldFileHistory [commitDup])).map (fun h => h.total_changes)
        = some 2 ∧
    ((([commitDup].filter (fun c => "a" ∈ c.files_changed)).map
        CommitInfo.id).dedup).length = 1 ∧
    (2 : Nat) ≠ 1 := by
  decide

/-- C3 (amended): after folding any commit sequence into the empty map,
the total-changes counters sum to the total changed-file count; and when
commit ids are pairwise distinct and no commit lists a path twice, each
entry's counter equals the number of distinct commits folded into it. -/
theorem file_history_fold_totals (cs : List CommitInfo)
    (hids : (cs.map CommitInfo.id).Nodup)
    (hfiles : ∀ c ∈ cs, c.files_changed.Nodup) :
    totalChangesSum (foldFileHistory cs)
        = (cs.map (fun c => c.files_changed.length)).sum ∧
    ∀ p h, findEntry p (foldFileHistory cs) = some h →
      h.total_changes
        = (((cs.filter (fun c => p ∈ c.files_changed)).map CommitInfo.id).dedup).length := by
  constructor
  · rw [foldFileHistory, sum_fold_commits]
    simp [totalChangesSum]
  · intro p h hfe
    have h1 : tcAt (foldFileHistory cs) p = h.total_changes := by
      simp [tcAt, hfe]
    have h2 := tcAt_fold_commits p cs []
    rw [foldFileHistory] at h1
    rw [h1] at h2
    have h3 : tcAt [] p = 0 := by simp [tcAt, findEntry]
    rw [h3, Nat.zero_add, sum_counts_nodup p cs hfiles] at h2
    have h4 : ((cs.filter (fun c => p ∈ c.files_changed)).map CommitInfo.id).Nodup := by
      refine List.Nodup.sublist ?_ hids
      exact List.Sublist.map CommitInfo.id (List.filter_sublist cs)
    rw [List.dedup_eq_self.mpr h4, List.length_map]
    exact h2

/-- C3 witness: the fold-totals theorem applied to two well-formed
commits touching overlapping files. -/
theorem file_history_fold_totals_witness :
    ((commitsPair.map CommitInfo.id).Nodup ∧
      ∀ c ∈ commitsPair, c.files_changed.Nodup) ∧
    (totalChangesSum (foldFileHistory commitsPair)
        = (commitsPair.map (fun c => c.files_changed.length)).sum ∧
    ∀ p h, findEntry p (foldFileHistory commitsPair) = some h →
      h.total_changes
        = (((commitsPair.filter (fun c => p ∈ c.files_changed)).map
            CommitInfo.id).dedup).length) :=
  ⟨⟨by decide, by decide⟩, file_history_fold_totals commitsPair (by decide) (by decide)⟩

/-- C4 counterexample: on eleven files the claim's ceiling of ten percent
asks for two high-churn entries, but the code computes the floor
`len / 10` (then at least one), so exactly one entry is selected. -/
theorem high_churn_ceil_cex :
    ((calculate_derived_stats (400 * 86400) (baseStats fh11)).high_churn_files).length = 1 ∧
    ((baseStats fh11).file_history.length + 9) / 10 = 2 ∧ (1 : Nat) ≠ 2 := by
  decide

/-- C4 (amended): one run of the high-churn derivation appends the paths
of `max(1, floor(n / 10))` entries of the file history (all of them when
fewer exist), every selected entry having at least the churn of every
unselected one; the selection is non-empty exactly when the file history
is. -/
theorem high_churn_top_decile_floor (now : Int) (s : RepositoryStats) :
    ∃ sel rest : List (String × FileHistory),
      (calculate_derived_stats now s).high_churn_files
          = s.high_churn_files ++ sel.map (fun e => e.1) ∧
      sel.length = min (max (s.file_history.length / 10) 1) s.file_history.length ∧
      List.Perm s.file_history (sel ++ rest) ∧
      (∀ a ∈ sel, ∀ b ∈ rest, b.2.total_changes ≤ a.2.total_changes) ∧
      (s.file_history ≠ [] → sel ≠ []) := by
  classical
  set L := List.insertionSort churnGe s.file_history with hL
  set k := max (s.file_history.length / 10) 1 with hk
  refine ⟨L.take k, L.drop k, ?_, ?_, ?_, ?_, ?_⟩
  · rw [calc_derived_spec]
    simp [derivedHighChurn, hL, hk]
  · rw [List.length_take, hL, List.length_insertionSort]
  · have hperm : List.Perm s.file_history L := (List.perm_insertionSort churnGe _).symm
    simpa [List.take_append_drop] using hperm
  · have hs : List.Pairwise churnGe L := List.sorted_insertionSort churnGe _
    rw [← List.take_append_drop k L] at hs
    have := List.pairwise_append.mp hs
    exact fun a ha b hb => this.2.2 a ha b hb
  · intro hne
    have hlen : 0 < s.file_history.length := List.length_pos.mpr hne
    intro hsel
    have : (L.take k).length = 0 := by rw [hsel]; rfl
    rw [List.length_take, hL, List.length_insertionSort] at this
    omega

/-- C5 counterexample: a second run of `calculate_derived_stats` on
unchanged file history appends the single-author derivation again, so
the list doubles instead of being reproduced. -/
theorem derived_lists_idempotence_cex :
    (calculate_derived_stats 0 (calculate_derived_stats 0 (baseStats fh5))).single_author_files
        = ["f", "f"] ∧
    (calculate_derived_stats 0 (baseStats fh5)).single_author_files = ["f"] ∧
    (["f", "f"] : List String) ≠ ["f"] := by
  decide

/-- C5 (amended): the derivation appends entries computed purely from the
file-history map (and the stale clock) without clearing the lists first,
so a second run on the unchanged map appends the same derived entries
once more instead of being idempotent. -/
theorem derived_lists_append_on_rerun (now : Int) (s : RepositoryStats) :
    (calculate_derived_stats now (calculate_derived_stats now s)).single_author_files
      = (calculate_derived_stats now s).single_author_files
          ++ derivedSingleAuthor s.file_history ∧
    (calculate_derived_stats now (calculate_derived_stats now s)).stale_files
      = (calculate_derived_stats now s).stale_files
          ++ staleByDays 365 now s.file_history ∧
    (calculate_derived_stats now (calculate_derived_stats now s)).high_churn_files
      = (calculate_derived_stats now s).high_churn_files
          ++ derivedHighChurn s.file_history := by
  rw [calc_derived_spec now (calculate_derived_stats now s), calc_derived_spec now s]
  simp

/-- C6 counterexample: the code sub-score is not bounded by any cap - it
grows by 0.5 per vulnerable dependency, already 21 at 42 of them - so
the three sub-scores are not each individually capped; only the
vulnerability sub-score is. -/
theorem code_risks_uncapped_cex :
    calculate_code_risks (cfDeps 42) = 21 ∧ (10 : ℝ) < 21 ∧
    ¬ ∃ cap : ℝ, ∀ n : Nat, calculate_code_risks (cfDeps n) ≤ cap := by
  refine ⟨?_, by norm_num, ?_⟩
  · unfold calculate_code_risks cfDeps emptyCodeStats emptyDependencyAnalysis
    norm_num
  · rintro ⟨cap, hcap⟩
    obtain ⟨n, hn⟩ := exists_nat_gt (2 * cap)
    have h := hcap n
    unfold calculate_code_risks cfDeps emptyCodeStats emptyDependencyAnalysis at h
    norm_num at h
    nlinarith

/-- C6 (amended): the overall score is the sum of the git, code and
vulnerability sub-scores capped at 10; of the three, only the
vulnerability sub-score carries its own cap (5).  For non-empty file
counts and non-negative finding scores every sub-score is non-negative,
so the overall score lies in the interval from 0 to 10. -/
theorem overall_risk_bounds (cf : CombinedFindings)
    (hg : 0 < cf.git_stats.total_files)
    (hc : 0 < cf.code_stats.total_files)
    (hv : ∀ v ∈ cf.vulnerabilities, 0 ≤ v.risk_score) :
    0 ≤ calculate_git_risks cf ∧
    0 ≤ calculate_code_risks cf ∧
    0 ≤ calculate_vulnerability_risks cf ∧
    calculate_vulnerability_risks cf ≤ 5 ∧
    calculate_overall_risk cf
      = min (calculate_git_risks cf + calculate_code_risks cf
          + calculate_vulnerability_risks cf) 10 ∧
    0 ≤ calculate_overall_risk cf ∧ calculate_overall_risk cf ≤ 10 := by
  have hgit : 0 ≤ calculate_git_risks cf := by
    unfold calculate_git_risks
    positivity
  have hsum : 0 ≤ (cf.vulnerabilities.map (fun v => v.risk_score / 10)).sum := by
    refine List.sum_nonneg ?_
    intro x hx
    obtain ⟨v, hvmem, rfl⟩ := List.mem_map.mp hx
    have := hv v hvmem
    positivity
  have hvuln : 0 ≤ calculate_vulnerability_risks cf := by
    unfold calculate_vulnerability_risks
    exact le_min hsum (by norm_num)
  have hcode : 0 ≤ calculate_code_risks cf := by
    unfold calculate_code_risks
    have h1 : (0:ℝ) ≤ ((cf.code_stats.file_complexity.filter
        (fun c => (10 : ℚ) < c.2.cyclomatic_complexity)).length : ℝ)
          / (cf.code_stats.total_files : ℝ) * 2 := by positivity
    have h2 : (0:ℝ) ≤ min
        ((cf.code_stats.dependency_analysis.outdated_dependencies.length : ℝ) * 0.1) 1 :=
      le_min (by positivity) (by norm_num)
    have h3 : (0:ℝ) ≤
        (cf.code_stats.dependency_analysis.vulnerable_dependencies.length : ℝ) * 0.5 := by
      positivity
    linarith
  refine ⟨hgit, hcode, hvuln, ?_, rfl, ?_, ?_⟩
  · exact min_le_right _ _
  · exact le_min (by linarith) (by norm_num)
  · exact min_le_right _ _

/-- C6 witness: the bounds theorem applied to a one-file repository with
no findings. -/
theorem overall_risk_bounds_witness :
    (0 < cfW.git_stats.total_files ∧ 0 < cfW.code_stats.total_files ∧
      ∀ v ∈ cfW.vulnerabilities, 0 ≤ v.risk_score) ∧
    (0 ≤ calculate_git_risks cfW ∧
     0 ≤ calculate_code_risks cfW ∧
     0 ≤ calculate_vulnerability_risks cfW ∧
     calculate_vulnerability_risks cfW ≤ 5 ∧
     calculate_overall_risk cfW
       = min (calculate_git_risks cfW + calculate_code_risks cfW
           + calculate_vulnerability_risks cfW) 10 ∧
     0 ≤ calculate_overall_risk cfW ∧ calculate_overall_risk cfW ≤ 10) :=
  ⟨⟨by decide, by decide, fun v hv => absurd hv (List.not_mem_nil v)⟩,
   overall_risk_bounds cfW (by decide) (by decide)
     (fun v hv => absurd hv (List.not_mem_nil v))⟩

/-- C7: the batch never errors (first conjunct, for any environment and
covering completion order), but a probe timeout does not stay with its
own commit: with c0 timed out and tasks finishing in reverse order, the
empty list lands on c1 and c0 receives c1's files, against the claim
that only the timed-out commit's list is empty while every other commit
keeps its own list.  The metadata stays correctly associated. -/
theorem probe_timeout_batch_degradation :
    (∀ (env : ProbeEnv) (ps : List PartialCommit) (order : List Nat),
      ps.length ≤ order.length →
        ∃ cs, analyzeBatch env ps order = Except.ok cs ∧ cs.length = ps.length) ∧
    probeTask envTimeout "c0" = Except.ok [] ∧
    probeTask envTimeout "c1" = Except.ok ["b"] ∧
    (analyzeBatch envTimeout [pcOf "c0", pcOf "c1"] [1, 0]).map
        (fun l => l.map CommitInfo.id) = Except.ok ["c0", "c1"] ∧
    (analyzeBatch envTimeout [pcOf "c0", pcOf "c1"] [1, 0]).map
        (fun l => l.map CommitInfo.files_changed) = Except.ok [["b"], []] ∧
    (Except.ok [["b"], []] : Except String (List (List String)))
      ≠ Except.ok [[], ["b"]] :=
  ⟨fun env ps order h => analyzeBatch_ok env ps order h, by decide⟩

/-- C8 counterexample: the aggregator classifies staleness against a
hardcoded 365-day horizon, so a configured threshold of 30 days (which
the specification says should change the classification) is ignored: at
day 1000, the file last touched at day 900 is stale under a 30-day
threshold but the code still reports only the epoch-old file. -/
theorem stale_days_config_ignored_cex :
    (calculate_derived_stats now8 (baseStats fh8)).stale_files = ["old"] ∧
    staleByDays 30 now8 (baseStats fh8).file_history = ["old", "mid"] ∧
    (["old"] : List String) ≠ ["old", "mid"] := by
  decide

/-- C8 (amended): one run appends exactly the entries whose last commit
precedes now by more than 365 days - the threshold is hardcoded at 365
in the aggregator (the CLI stale-days option only reaches the separate
code analyzer), and membership is characterized pointwise. -/
theorem stale_files_hardcoded_365 (now : Int) (s : RepositoryStats) :
    (calculate_derived_stats now s).stale_files
        = s.stale_files ++ staleByDays 365 now s.file_history ∧
    ∀ p : String, p ∈ staleByDays 365 now s.file_history ↔
      ∃ h : FileHistory, (p, h) ∈ s.file_history ∧ h.last_commit < now - 365 * 86400 := by
  constructor
  · rw [calc_derived_spec]
  · intro p
    constructor
    · intro hp
      obtain ⟨e, he, hep⟩ := List.mem_map.mp hp
      obtain ⟨hmem, hcond⟩ := List.mem_filter.mp he
      refine ⟨e.2, ?_, ?_⟩
      · have : (e.1, e.2) = e := rfl
        rw [hep] at this
        rwa [this]
      · have := of_decide_eq_true hcond
        simpa using this
    · rintro ⟨h, hmem, hcond⟩
      refine List.mem_map.mpr ⟨(p, h), ?_, rfl⟩
      refine List.mem_filter.mpr ⟨hmem, ?_⟩
      simpa using hcond

/-- C9 counterexample: the message XCVE-2021-1234 contains the text
CVE-2021-1234, yet the reference-extraction regex finds no match (the
required word boundary before cve is missing), so the engine produces no
reference-extraction match and no finding at all. -/
theorem cve_substring_no_match_cex :
    containsChars "CVE-2021-1234".data commitX.message.data = true ∧
    collectMatches [cveCompiled] commitX.message = ([], []) ∧
    (analyze_commit [cveCompiled] commitX).isNone = true := by
  refine ⟨by decide, by decide, ?_⟩
  have h : collectMatches [cveCompiled] commitX.message = ([], []) := by decide
  simp [analyze_commit, h]

/-- C9 (amended): whenever the reference-extraction regex's first match
on the message captures the identifier 2021-1234 (that is, CVE-2021-1234
occurs at a word boundary, is not followed by a further digit, and no
other CVE reference precedes it), evaluation with any engine containing
the compiled CVE pattern yields a finding whose reference list contains
CVE-2021-1234, through a match named CVE Reference. -/
theorem cve_reference_extraction (compiled : List CompiledPattern) (c : CommitInfo)
    (hmem : cveCompiled ∈ compiled)
    (hcap : (cveRegexFn c.message).map (fun r => r.2) = some (some "2021-1234")) :
    ∃ f, analyze_commit compiled c = some f ∧
      "CVE-2021-1234" ∈ f.cve_references ∧
      ∃ pm ∈ f.patterns_matched, pm.pattern_name = "CVE Reference" := by
  obtain ⟨r, hr, hr2⟩ := Option.map_eq_some'.mp hcap
  obtain ⟨g0, g1⟩ := r
  cases hr2
  obtain ⟨l1, l2, rfl⟩ := List.append_of_mem hmem
  have hfold : collectMatches (l1 ++ cveCompiled :: l2) c.message
      = l2.foldl (collectStep c.message)
          (collectStep c.message (l1.foldl (collectStep c.message) ([], [])) cveCompiled) := by
    rw [collectMatches, List.foldl_append, List.foldl_cons]
  obtain ⟨hrefs, pm, hpm, hname⟩ :=
    collectStep_cve c.message (l1.foldl (collectStep c.message) ([], [])) g0 hr
  have hx : "CVE-2021-1234" ∈
      (collectStep c.message (l1.foldl (collectStep c.message) ([], [])) cveCompiled).2 := by
    rw [hrefs]
    exact List.mem_append_right _ (List.mem_singleton.mpr rfl)
  have hxf : "CVE-2021-1234" ∈ (collectMatches (l1 ++ cveCompiled :: l2) c.message).2 := by
    rw [hfold]
    exact collect_refs_mono c.message l2 _ _ hx
  have hpmf : pm ∈ (collectMatches (l1 ++ cveCompiled :: l2) c.message).1 := by
    rw [hfold]
    exact collect_matches_mono c.message l2 _ _ hpm
  have hne : (collectMatches (l1 ++ cveCompiled :: l2) c.message).1.isEmpty = false := by
    rw [List.isEmpty_eq_false]
    exact List.ne_nil_of_mem hpmf
  refine ⟨{ commit_id := c.id, commit_message := c.message, author := c.author,
            date := c.authored_date, files_changed := c.files_changed,
            patterns_matched := (collectMatches (l1 ++ cveCompiled :: l2) c.message).1,
            risk_score :=
              calculate_risk_score
                (collectMatches (l1 ++ cveCompiled :: l2) c.message).1 c,
            cve_references := (collectMatches (l1 ++ cveCompiled :: l2) c.message).2 },
          ?_, hxf, pm, hpmf, hname⟩
  simp [analyze_commit, hne]

/-- C9 witness: the extraction theorem applied to the message Fix
CVE-2021-1234 in release, on the singleton engine holding the compiled
CVE pattern. -/
theorem cve_reference_extraction_witness :
    ((cveRegexFn commitW2.message).map (fun r => r.2) = some (some "2021-1234")) ∧
    (∃ f, analyze_commit [cveCompiled] commitW2 = some f ∧
      "CVE-2021-1234" ∈ f.cve_references ∧
      ∃ pm ∈ f.patterns_matched, pm.pattern_name = "CVE Reference") :=
  ⟨by decide,
   cve_reference_extraction [cveCompiled] commitW2
     (List.mem_singleton.mpr rfl) (by decide)⟩

/-- C10: a matching commit whose changed-file list is empty receives a
risk score of exactly zero, because the square-root multiplier of the
file count vanishes - a degraded probe thus silently zeroes that
commit's vulnerability score. -/
theorem empty_files_zero_risk_score (compiled : List CompiledPattern) (c : CommitInfo)
    (hfe : c.files_changed = []) (h : matchesOf compiled c.message ≠ []) :
    ∃ f, analyze_commit compiled c = some f ∧ f.risk_score = 0 := by
  have hne : (collectMatches compiled c.message).1.isEmpty = false := by
    rw [List.isEmpty_eq_false]
    exact h
  refine ⟨{ commit_id := c.id, commit_message := c.message, author := c.author,
            date := c.authored_date, files_changed := c.files_changed,
            patterns_matched := (collectMatches compiled c.message).1,
            risk_score := calculate_risk_score (collectMatches compiled c.message).1 c,
            cve_references := (collectMatches compiled c.message).2 },
          ?_, ?_⟩
  · simp [analyze_commit, hne]
  · show calculate_risk_score (collectMatches compiled c.message).1 c = 0
    unfold calculate_risk_score
    rw [hfe]
    norm_num [Real.sqrt_zero]

/-- C10 witness: the zero-score theorem applied to a matching commit with
no changed files. -/
theorem empty_files_zero_risk_score_witness :
    commitW10.files_changed = [] ∧
    matchesOf [cveCompiled] commitW10.message ≠ [] ∧
    (∃ f, analyze_commit [cveCompiled] commitW10 = some f ∧ f.risk_score = 0) :=
  ⟨by decide, by decide,
   empty_files_zero_risk_score [cveCompiled] commitW10 (by decide) (by decide)⟩

end CR
